import Mathlib

/-!
Shallow embedding of `src/main.py`, a text adventure game
("A Visit from El Chupacabras").

Modelling conventions:
* Python dictionaries become association lists (`List (String × Room)`,
  `List (String × String)`); dictionary lookup is `List.lookup` (first
  match), key membership is `lookup ≠ none`.
* Python `None` becomes `Option.none`; a room's `item` field
  (`dict or None`) becomes `Option Item`.
* Operations that mutate objects in place return the updated value
  explicitly.  The Python `Player` holds a reference to the same `Room`
  object stored in `Game.rooms`; a mutation through one alias is visible
  through the other.  This aliasing is modelled by an explicit write-back
  of the player's room into the room map under the room's name
  (`updateRoom`); on every state the game can actually reach, the map
  entry under that name is exactly the player's room, so the write-back
  coincides with Python's in-place mutation.
* Code paths on which Python would raise an exception (a failing
  dictionary lookup) are modelled by `Option.none` in the result type of
  the corresponding function.
-/

/-- Item dictionary of a room: `{"item_name": ..., "item_use": ...}`. -/
structure Item where
  item_name : String
  item_use : String
  deriving DecidableEq, Repr

/-- The `Room` class: name, optional item, and exits
(a dict from cardinal direction to room name). -/
structure Room where
  name : String
  item : Option Item
  exits : List (String × String)
  deriving DecidableEq, Repr

/-- The `Player` class: the room the player is currently in and the
inventory of collected item names. -/
structure Player where
  current_room : Room
  inventory : List String
  deriving DecidableEq, Repr

/-- `Room.has_item`: `if self.item is None: return False else: return True`. -/
def Room.has_item (r : Room) : Bool :=
  match r.item with
  | none => false
  | some _ => true

/-- `Room.remove_item`: `self.item = None`. -/
def Room.remove_item (r : Room) : Room :=
  { r with item := none }

/-- The name stored in the room's item dictionary, when an item is
present: `self.item["item_name"]` guarded by `has_item`. -/
def Room.itemName (r : Room) : Option String :=
  r.item.map Item.item_name

/-- `Player.get_item`: if the current room has an item and its name equals
the requested name, append the name to the inventory, remove the item from
the room and confirm; otherwise report failure and change nothing. -/
def Player.get_item (p : Player) (item : String) : Player × String :=
  if p.current_room.has_item = true ∧ p.current_room.itemName = some item then
    ({ current_room := p.current_room.remove_item,
       inventory := p.inventory ++ [item] },
     "You picked up a " ++ item ++ ".")
  else
    (p, "Can\x27t get that item.")

/-- The `Game` class: the room dict, the player, and the derived count
`total_items`. -/
structure Game where
  rooms : List (String × Room)
  player : Player
  total_items : Nat
  deriving DecidableEq, Repr

/-- `Game.VALIDATION_MESSAGE`. -/
def VALIDATION_MESSAGE : String := "Please enter a valid move."

/-- `rooms_config`: the static room configuration.  Each Python config
entry is a dict with keys `name`, `item`, `exits`, which
`RoomFactory.create_room` passes field-by-field to the `Room`
constructor, so each entry is recorded here directly as a `Room`. -/
def rooms_config : List (String × Room) :=
  [("bedroom",
    { name := "bedroom", item := none,
      exits := [("north", "living room"), ("east", "kids\x27 room")] }),
   ("living room",
    { name := "living room",
      item := some { item_name := "pro camera",
                     item_use := "document clear proof of the existence of el Chupacabras" },
      exits := [("north", "storage room"), ("east", "kitchen"),
                ("south", "bedroom"), ("west", "bathroom")] }),
   ("kids\x27 room",
    { name := "kids\x27 room",
      item := some { item_name := "goat plushie",
                     item_use := "distract el Chupacabras" },
      exits := [("west", "bedroom")] }),
   ("storage room",
    { name := "storage room",
      item := some { item_name := "machete",
                     item_use := "kill el Chupacabras if you have to" },
      exits := [("east", "backyard"), ("south", "living room")] }),
   ("kitchen",
    { name := "kitchen",
      item := some { item_name := "frying pan",
                     item_use := "knock out el Chupacabras" },
      exits := [("north", "garage"), ("west", "living room")] }),
   ("bathroom",
    { name := "bathroom",
      item := some { item_name := "shampoo bottle",
                     item_use := "blind el Chupacabras" },
      exits := [("east", "living room")] }),
   ("garage",
    { name := "garage",
      item := some { item_name := "rope",
                     item_use := "tie up el Chupacabras" },
      exits := [("south", "kitchen")] }),
   ("backyard",
    { name := "backyard", item := none,
      exits := [("west", "storage room")] })]

/-- `RoomFactory.create_room`: look the name up in `rooms_config` and build
the room; `none` models the `TypeError` Python would raise on a missing
name (`rooms_config.get` returning `None`). -/
def RoomFactory.create_room (room_name : String) : Option Room :=
  rooms_config.lookup room_name

/-- The room-name list used by `Game.__init__`. -/
def room_names : List String :=
  ["bedroom", "living room", "kids\x27 room", "storage room",
   "kitchen", "bathroom", "garage", "backyard"]

/-- The room dict built by `Game.__init__`:
`self.rooms[room] = RoomFactory.create_room(room)` for each name. -/
def initRooms : List (String × Room) :=
  room_names.filterMap (fun n => (RoomFactory.create_room n).map (fun r => (n, r)))

/-- `Game.__init__`: build the rooms, put the player in the bedroom with an
empty inventory, and count the rooms that initially hold an item. -/
def initGame : Game :=
  { rooms := initRooms,
    player := { current_room :=
                  (initRooms.lookup "bedroom").getD { name := "", item := none, exits := [] },
                inventory := [] },
    total_items := initRooms.countP (fun p => p.2.has_item) }

/-- The `valid_directions` list of `Game.move_player`. -/
def valid_directions : List String := ["north", "south", "east", "west"]

/-- `Game.move_player`: reject a non-cardinal direction with the validation
message; otherwise follow the current room's exit if it exists, else report
that there is no room that way.  The outer `none` result models the
`KeyError` Python would raise if an exit named a room missing from
`self.rooms`. -/
def Game.move_player (g : Game) (direction : String) : Option (Game × String) :=
  if direction ∉ valid_directions then
    some (g, VALIDATION_MESSAGE)
  else
    match g.player.current_room.exits.lookup direction with
    | some room_name =>
      match g.rooms.lookup room_name with
      | some room =>
        some ({ g with player := { g.player with current_room := room } },
              "You moved to the " ++ room_name ++ ".")
      | none => none
    | none => some (g, "There is no room in that direction.")

/-- Replace the value stored under key `k` with `r`, keeping every key in
place; this is how the in-place mutation of the aliased `Room` object shows
up in the room map. -/
def updateRoom (rooms : List (String × Room)) (k : String) (r : Room) :
    List (String × Room) :=
  rooms.map (fun p => if p.1 = k then (p.1, r) else p)

/-- Game-level view of `self.player.get_item(...)` as called from
`Game.process_command`: the same branch as `Player.get_item`, with the
room mutation written back into the room map under the room's name
(Python aliasing, see the module docstring). -/
def Game.get_item (g : Game) (item : String) : Game × String :=
  if g.player.current_room.has_item = true ∧ g.player.current_room.itemName = some item then
    ({ g with
        player := { current_room := g.player.current_room.remove_item,
                    inventory := g.player.inventory ++ [item] },
        rooms := updateRoom g.rooms g.player.current_room.name
                   g.player.current_room.remove_item },
     "You picked up a " ++ item ++ ".")
  else
    (g, "Can\x27t get that item.")

/-- Python `str.lower()`, character by character (the ASCII lowering of
`Char.toLower` covers every character the game compares against). -/
def pyLower (s : String) : String :=
  String.mk (s.data.map Char.toLower)

/-- Python `str.strip()`: drop leading and trailing whitespace. -/
def pyStrip (s : String) : String :=
  String.mk (((s.data.dropWhile Char.isWhitespace).reverse.dropWhile
    Char.isWhitespace).reverse)

/-- Accumulator pass behind `pySplit`: walk the characters, collecting the
current token in reverse in `acc` and emitting it at each whitespace run. -/
def pySplitAux : List Char → List Char → List String
  | [], acc => if acc.isEmpty then [] else [String.mk acc.reverse]
  | c :: cs, acc =>
    if c.isWhitespace then
      if acc.isEmpty then pySplitAux cs []
      else String.mk acc.reverse :: pySplitAux cs []
    else pySplitAux cs (c :: acc)

/-- Python `str.split()` with no separator: split on whitespace runs,
dropping empty pieces. -/
def pySplit (s : String) : List String :=
  pySplitAux s.data []

/-- `Game.process_command`: lowercase, strip and split the input; dispatch
on the first token (`go` / `get`), demanding at least one argument token;
anything else yields the validation message. -/
def Game.process_command (g : Game) (user_input : String) : Option (Game × String) :=
  match pySplit (pyStrip (pyLower user_input)) with
  | [] => some (g, VALIDATION_MESSAGE)
  | first :: rest =>
    if first = "go" then
      match rest with
      | [] => some (g, VALIDATION_MESSAGE)
      | d :: _ => g.move_player d
    else if first = "get" then
      match rest with
      | [] => some (g, VALIDATION_MESSAGE)
      | _ :: _ => some (g.get_item (String.intercalate " " rest))
    else
      some (g, VALIDATION_MESSAGE)

/-- `Game.player_outcome`: decided only in the backyard, by comparing the
inventory size with `total_items`; `none` both outside the backyard and on
the (unreachable) fall-through where the inventory exceeds `total_items`. -/
def Game.player_outcome (g : Game) : Option String :=
  if g.player.current_room.name = "backyard" then
    if g.player.inventory.length < g.total_items then some "lost"
    else if g.player.inventory.length = g.total_items then some "won"
    else none
  else
    none

/-- Game states reachable from the freshly constructed game by any
sequence of processed commands. -/
inductive Reachable : Game → Prop where
  | init : Reachable initGame
  | step (g g' : Game) (s out : String) :
      Reachable g → g.process_command s = some (g', out) → Reachable g'

/-- Unfolding lemma for association-list lookup at a cons cell. -/
theorem lookup_cons {α β : Type} [BEq α] (a k : α) (b : β) (l : List (α × β)) :
    ((a, b) :: l).lookup k = if k == a then some b else l.lookup k := by
  rw [List.lookup]
  cases k == a <;> simp

/-- Lookup success produces a member of the association list. -/
theorem lookup_mem {α β : Type} [BEq α] [LawfulBEq α] {l : List (α × β)} {k : α} {v : β}
    (h : l.lookup k = some v) : (k, v) ∈ l := by
  induction l with
  | nil => simp [List.lookup] at h
  | cons p t ih =>
    obtain ⟨a, b⟩ := p
    rw [lookup_cons] at h
    by_cases hk : k = a
    · subst hk
      simp at h
      subst h
      exact List.mem_cons_self _ _
    · rw [if_neg (by simpa using hk)] at h
      exact List.mem_cons_of_mem _ (ih h)

/-- Concrete room used for instantiating universally quantified theorems. -/
def bedroom_room : Room :=
  { name := "bedroom", item := none,
    exits := [("north", "living room"), ("east", "kids\x27 room")] }

/-- Concrete room used for instantiating universally quantified theorems. -/
def backyard_room : Room :=
  { name := "backyard", item := none, exits := [("west", "storage room")] }

/-- Concrete player positioned in the living room, for witnesses. -/
def pCam : Player :=
  { current_room :=
      { name := "living room",
        item := some { item_name := "pro camera",
                       item_use := "document clear proof of the existence of el Chupacabras" },
        exits := [("north", "storage room"), ("east", "kitchen"),
                  ("south", "bedroom"), ("west", "bathroom")] },
    inventory := [] }

/-- Concrete game state with the player in the backyard and an empty
inventory, for witnesses. -/
def gBackyardEmpty : Game :=
  { rooms := initRooms,
    player := { current_room := backyard_room, inventory := [] },
    total_items := 6 }

/-- Concrete game state with the player in the backyard holding all six
items, for witnesses. -/
def gBackyardFull : Game :=
  { rooms := initRooms,
    player := { current_room := backyard_room,
                inventory := ["pro camera", "goat plushie", "machete",
                              "frying pan", "shampoo bottle", "rope"] },
    total_items := 6 }

/-- C1: `player_outcome` is `"lost"` in the backyard with fewer items than
`total_items`, `"won"` in the backyard with exactly `total_items` items,
and `none` (play continues) outside the backyard; and the constructed
game's `total_items` equals 6. -/
theorem C1_player_outcome (g : Game) :
    (g.player.current_room.name = "backyard" →
        g.player.inventory.length < g.total_items → g.player_outcome = some "lost") ∧
    (g.player.current_room.name = "backyard" →
        g.player.inventory.length = g.total_items → g.player_outcome = some "won") ∧
    (g.player.current_room.name ≠ "backyard" → g.player_outcome = none) ∧
    initGame.total_items = 6 := by
  refine ⟨?_, ?_, ?_, by decide⟩
  · intro h hlt
    simp [Game.player_outcome, h, hlt]
  · intro h heq
    simp [Game.player_outcome, h, heq]
  · intro h
    simp [Game.player_outcome, h]

/-- Witness for C1: concrete outcomes in the backyard with 0 and with 6
items, and in the starting bedroom. -/
theorem C1_player_outcome_witness :
    gBackyardEmpty.player_outcome = some "lost" ∧
    gBackyardFull.player_outcome = some "won" ∧
    initGame.player_outcome = none :=
  ⟨(C1_player_outcome gBackyardEmpty).1 rfl (by decide),
   (C1_player_outcome gBackyardFull).2.1 rfl (by decide),
   (C1_player_outcome initGame).2.2.1 (by decide)⟩

/-- C2: `Player.get_item` succeeds exactly when the current room holds an
item whose name equals the requested name; on success the name is appended
to the inventory (length grows by 1) and the room's item is removed; on
mismatch or absent item the player is unchanged and the failure message is
returned. -/
theorem C2_get_item (p : Player) (nm : String) :
    (p.current_room.itemName = some nm →
      (p.get_item nm).1.inventory = p.inventory ++ [nm] ∧
      (p.get_item nm).1.inventory.length = p.inventory.length + 1 ∧
      (p.get_item nm).1.current_room.item = none ∧
      (p.get_item nm).2 = "You picked up a " ++ nm ++ ".") ∧
    (p.current_room.itemName ≠ some nm →
      (p.get_item nm).1 = p ∧
      (p.get_item nm).2 = "Can\x27t get that item.") := by
  constructor
  · intro h
    have hh : p.current_room.has_item = true := by
      unfold Room.itemName at h
      unfold Room.has_item
      cases hit : p.current_room.item with
      | none => rw [hit] at h; simp at h
      | some _ => rfl
    simp [Player.get_item, hh, h, Room.remove_item]
  · intro h
    simp [Player.get_item, h]

/-- Witness for C2: picking up the pro camera in the living room succeeds
and updates state; asking for a machete there fails and changes nothing. -/
theorem C2_get_item_witness :
    ((pCam.get_item "pro camera").1.inventory = pCam.inventory ++ ["pro camera"] ∧
     (pCam.get_item "pro camera").1.inventory.length = pCam.inventory.length + 1 ∧
     (pCam.get_item "pro camera").1.current_room.item = none ∧
     (pCam.get_item "pro camera").2 = "You picked up a " ++ "pro camera" ++ ".") ∧
    ((pCam.get_item "machete").1 = pCam ∧
     (pCam.get_item "machete").2 = "Can\x27t get that item.") :=
  ⟨(C2_get_item pCam "pro camera").1 (by decide),
   (C2_get_item pCam "machete").2 (by decide)⟩

/-- C3: a non-cardinal direction yields the generic validation message and
an unchanged game; a cardinal direction with no exit in the current room
yields the distinct no-room message and an unchanged game; the two result
strings differ. -/
theorem C3_move_player (g : Game) (d : String) :
    (d ∉ valid_directions → g.move_player d = some (g, VALIDATION_MESSAGE)) ∧
    (d ∈ valid_directions → g.player.current_room.exits.lookup d = none →
        g.move_player d = some (g, "There is no room in that direction.")) ∧
    VALIDATION_MESSAGE ≠ "There is no room in that direction." := by
  refine ⟨?_, ?_, by decide⟩
  · intro h
    simp [Game.move_player, h]
  · intro h hl
    simp [Game.move_player, h, hl]

/-- Witness for C3: in the starting bedroom, "up" is rejected as invalid
and "south" (a cardinal direction with no exit there) reports no room. -/
theorem C3_move_player_witness :
    initGame.move_player "up" = some (initGame, VALIDATION_MESSAGE) ∧
    initGame.move_player "south" = some (initGame, "There is no room in that direction.") ∧
    VALIDATION_MESSAGE ≠ "There is no room in that direction." :=
  ⟨(C3_move_player initGame "up").1 (by decide),
   (C3_move_player initGame "south").2.1 (by decide) (by decide),
   (C3_move_player initGame "up").2.2⟩

/-- C5: each of the malformed inputs "jump", "go", "get" and "" yields the
validation message and returns the game state unchanged (same player room,
inventory, and room map). -/
theorem C5_malformed_frame (g : Game) :
    g.process_command "jump" = some (g, VALIDATION_MESSAGE) ∧
    g.process_command "go" = some (g, VALIDATION_MESSAGE) ∧
    g.process_command "get" = some (g, VALIDATION_MESSAGE) ∧
    g.process_command "" = some (g, VALIDATION_MESSAGE) :=
  ⟨rfl, rfl, rfl, rfl⟩

/-- C7: `remove_item` leaves the room without an item, a second call is a
no-op, and calling it on a room with no item is already a no-op. -/
theorem C7_remove_item (r : Room) :
    r.remove_item.has_item = false ∧
    r.remove_item.remove_item = r.remove_item ∧
    (r.item = none → r.remove_item = r) := by
  refine ⟨rfl, rfl, ?_⟩
  intro h
  cases r with
  | mk n it ex =>
    cases h
    rfl

/-- Witness for C7: the backyard starts with no item, and `remove_item`
leaves it unchanged. -/
theorem C7_remove_item_witness :
    backyard_room.remove_item.has_item = false ∧
    backyard_room.remove_item.remove_item = backyard_room.remove_item ∧
    backyard_room.remove_item = backyard_room :=
  ⟨(C7_remove_item backyard_room).1,
   (C7_remove_item backyard_room).2.1,
   (C7_remove_item backyard_room).2.2 rfl⟩

/-- C4: `process_command` tokenizes the lowercased, stripped input on
whitespace; an empty token list or an unknown first token yields the
validation message, `go`/`get` with no argument yields the validation
message, `go` uses only the second token, and `get` joins all remaining
tokens with single spaces into the item name. -/
theorem C4_process_command (g : Game) (s : String) :
    (pySplit (pyStrip (pyLower s)) = [] →
        g.process_command s = some (g, VALIDATION_MESSAGE)) ∧
    (∀ w rest, pySplit (pyStrip (pyLower s)) = w :: rest → w ≠ "go" → w ≠ "get" →
        g.process_command s = some (g, VALIDATION_MESSAGE)) ∧
    (pySplit (pyStrip (pyLower s)) = ["go"] →
        g.process_command s = some (g, VALIDATION_MESSAGE)) ∧
    (∀ d rest, pySplit (pyStrip (pyLower s)) = "go" :: d :: rest →
        g.process_command s = g.move_player d) ∧
    (pySplit (pyStrip (pyLower s)) = ["get"] →
        g.process_command s = some (g, VALIDATION_MESSAGE)) ∧
    (∀ a rest, pySplit (pyStrip (pyLower s)) = "get" :: a :: rest →
        g.process_command s = some (g.get_item (String.intercalate " " (a :: rest)))) := by
  refine ⟨?_, ?_, ?_, ?_, ?_, ?_⟩
  · intro h
    unfold Game.process_command
    rw [h]
  · intro w rest h hw1 hw2
    unfold Game.process_command
    rw [h]
    simp only [if_neg hw1, if_neg hw2]
  · intro h
    unfold Game.process_command
    rw [h]
    rfl
  · intro d rest h
    unfold Game.process_command
    rw [h]
    rfl
  · intro h
    unfold Game.process_command
    rw [h]
    rfl
  · intro a rest h
    unfold Game.process_command
    rw [h]
    rfl

/-- Witness for C4: one concrete input for each branch of the command
interpreter, from whitespace-only input to a multi-word `get`. -/
theorem C4_process_command_witness :
    (initGame.process_command "  " = some (initGame, VALIDATION_MESSAGE)) ∧
    (initGame.process_command "jump north" = some (initGame, VALIDATION_MESSAGE)) ∧
    (initGame.process_command "go" = some (initGame, VALIDATION_MESSAGE)) ∧
    (initGame.process_command "Go North now" = initGame.move_player "north") ∧
    (initGame.process_command "get" = some (initGame, VALIDATION_MESSAGE)) ∧
    (initGame.process_command "GET pro camera" =
        some (initGame.get_item (String.intercalate " " ["pro", "camera"]))) :=
  ⟨(C4_process_command initGame "  ").1 (by decide),
   (C4_process_command initGame "jump north").2.1 "jump" ["north"]
     (by decide) (by decide) (by decide),
   (C4_process_command initGame "go").2.2.1 (by decide),
   (C4_process_command initGame "Go North now").2.2.2.1 "north" ["now"] (by decide),
   (C4_process_command initGame "get").2.2.2.2.1 (by decide),
   (C4_process_command initGame "GET pro camera").2.2.2.2.2 "pro" ["camera"] (by decide)⟩

/-- Game positioned at a given room over the constructed room map, with an
empty inventory, for stating the round-trip property. -/
def gameAt (r : Room) : Game :=
  { rooms := initRooms,
    player := { current_room := r, inventory := [] },
    total_items := 6 }

/-- Reverse of a cardinal direction: north/south and east/west swapped. -/
def reverse_direction (d : String) : String :=
  if d = "north" then "south"
  else if d = "south" then "north"
  else if d = "east" then "west"
  else if d = "west" then "east"
  else d

/-- C6: for every room of the fixed configuration and every exit, the
target room's exits map the reverse direction back to the source room, and
moving along the exit and then along the reverse direction puts the player
back in the original room. -/
theorem C6_round_trip :
    ∀ p ∈ initRooms, ∀ q ∈ p.2.exits,
      ((initRooms.lookup q.2).bind
          (fun r2 => r2.exits.lookup (reverse_direction q.1))) = some p.1 ∧
      ((((gameAt p.2).move_player q.1).bind
          (fun gm => gm.1.move_player (reverse_direction q.1))).map
        (fun gm2 => gm2.1.player.current_room)) = some p.2 := by
  decide

/-- Witness for C6: the bedroom's north exit to the living room has the
matching south exit back, and going north then south returns the player to
the bedroom. -/
theorem C6_round_trip_witness :
    ((initRooms.lookup "living room").bind
        (fun r2 => r2.exits.lookup (reverse_direction "north"))) = some "bedroom" ∧
    ((((gameAt bedroom_room).move_player "north").bind
        (fun gm => gm.1.move_player (reverse_direction "north"))).map
      (fun gm2 => gm2.1.player.current_room)) = some bedroom_room :=
  C6_round_trip ("bedroom", bedroom_room) (by decide) ("north", "living room") (by decide)

/-- Keys of the room map are unchanged by `updateRoom`. -/
theorem updateRoom_map_fst (rooms : List (String × Room)) (k : String) (r : Room) :
    (updateRoom rooms k r).map Prod.fst = rooms.map Prod.fst := by
  induction rooms with
  | nil => rfl
  | cons p t ih =>
    simp only [updateRoom, List.map_cons] at ih ⊢
    rw [ih]
    by_cases h : p.1 = k
    · rw [if_pos h]
    · rw [if_neg h]

/-- Propositional form of `lookup_cons` for keys with lawful boolean
equality. -/
theorem lookup_cons_eq {α β : Type} [BEq α] [LawfulBEq α] [DecidableEq α]
    (a k : α) (b : β) (l : List (α × β)) :
    ((a, b) :: l).lookup k = if k = a then some b else l.lookup k := by
  rw [lookup_cons]
  by_cases h : k = a
  · rw [if_pos (beq_iff_eq.mpr h), if_pos h]
  · rw [if_neg (by simpa using h), if_neg h]

/-- Unfolding of `updateRoom` at a cons cell. -/
theorem updateRoom_cons (a : String) (b : Room) (t : List (String × Room))
    (k : String) (r : Room) :
    updateRoom ((a, b) :: t) k r =
      (if a = k then (a, r) else (a, b)) :: updateRoom t k r := by
  simp [updateRoom]

/-- Lookup in an updated room map: the updated key returns the new room
when it was present, every other key is untouched. -/
theorem lookup_updateRoom (rooms : List (String × Room)) (k q : String) (r : Room) :
    (updateRoom rooms k r).lookup q =
      if q = k then (rooms.lookup q).map (fun _ => r) else rooms.lookup q := by
  induction rooms with
  | nil =>
    by_cases h : q = k
    · rw [if_pos h]; rfl
    · rw [if_neg h]; rfl
  | cons p t ih =>
    obtain ⟨a, b⟩ := p
    rw [updateRoom_cons]
    by_cases hak : a = k
    · subst hak
      by_cases hqa : q = a
      · subst hqa
        simp [lookup_cons_eq]
      · simp [lookup_cons_eq, hqa, ih]
    · by_cases hqa : q = a
      · subst hqa
        simp [lookup_cons_eq, hak]
      · simp [lookup_cons_eq, hqa, hak, ih]

/-- Members of an updated room map: either an untouched member of the
original map, or the new binding at the updated key, which was present. -/
theorem mem_updateRoom {rooms : List (String × Room)} {k : String} {r : Room}
    {p : String × Room} (h : p ∈ updateRoom rooms k r) :
    p ∈ rooms ∨ (p = (k, r) ∧ ∃ v, (k, v) ∈ rooms) := by
  unfold updateRoom at h
  rw [List.mem_map] at h
  obtain ⟨a, ha, hfa⟩ := h
  by_cases hk : a.1 = k
  · right
    rw [if_pos hk] at hfa
    subst hfa
    subst hk
    exact ⟨rfl, a.2, ha⟩
  · left
    rw [if_neg hk] at hfa
    subst hfa
    exact ha

/-- Updating a key absent from the room map changes nothing. -/
theorem updateRoom_not_mem {rooms : List (String × Room)} {k : String}
    (h : k ∉ rooms.map Prod.fst) (r : Room) : updateRoom rooms k r = rooms := by
  induction rooms with
  | nil => rfl
  | cons p t ih =>
    simp only [List.map_cons, List.mem_cons, not_or] at h
    simp only [updateRoom, List.map_cons] at ih ⊢
    rw [if_neg (fun hp => h.1 hp.symm), ih h.2]

/-- Counting rooms that satisfy `f` after an update at a present key with
no-duplicate keys: the old value's contribution is traded for the new
one's. -/
theorem countP_updateRoom {rooms : List (String × Room)} {k : String} {v : Room}
    (f : Room → Bool) (hnd : (rooms.map Prod.fst).Nodup)
    (hv : rooms.lookup k = some v) (r : Room) :
    (updateRoom rooms k r).countP (fun p => f p.2) + (if f v then 1 else 0)
      = rooms.countP (fun p => f p.2) + (if f r then 1 else 0) := by
  induction rooms with
  | nil => simp [List.lookup] at hv
  | cons p t ih =>
    obtain ⟨a, b⟩ := p
    rw [List.map_cons, List.nodup_cons] at hnd
    rw [lookup_cons_eq] at hv
    rw [updateRoom_cons]
    by_cases hak : k = a
    · rw [if_pos hak] at hv
      injection hv with hv'
      subst hv'
      have ht : updateRoom t k r = t := by
        refine updateRoom_not_mem ?_ r
        rw [hak]
        exact hnd.1
      rw [if_pos hak.symm, ht, List.countP_cons, List.countP_cons]
      by_cases hfb : f b <;> by_cases hfr : f r <;> simp [hfb, hfr] <;> omega
    · rw [if_neg hak] at hv
      have hI := ih hnd.2 hv
      rw [if_neg (fun h => hak h.symm), List.countP_cons, List.countP_cons]
      by_cases hfv : f v <;> by_cases hfr : f r <;> by_cases hfb : f b <;>
        simp [hfv, hfr, hfb] at hI ⊢ <;> omega

/-- Every value in the room map carries its own key as its `name`. -/
def RoomsKeysNamed (rooms : List (String × Room)) : Prop :=
  ∀ p ∈ rooms, p.2.name = p.1

/-- Every exit of every room in the map resolves to a key of the map. -/
def RoomsClosed (rooms : List (String × Room)) : Prop :=
  ∀ p ∈ rooms, ∀ q ∈ p.2.exits, (rooms.lookup q.2).isSome = true

/-- Invariant of reachable game states: the room keys are those of the
constructed game, room names match their keys, the exit graph is closed,
the player's room is the map entry under its name (the Python aliasing),
and collected plus still-placed items add up to `total_items`. -/
def Game.Inv (g : Game) : Prop :=
  g.rooms.map Prod.fst = initRooms.map Prod.fst ∧
  RoomsKeysNamed g.rooms ∧
  RoomsClosed g.rooms ∧
  g.rooms.lookup g.player.current_room.name = some g.player.current_room ∧
  g.player.inventory.length + g.rooms.countP (fun p => p.2.has_item) = g.total_items

/-- The freshly constructed game satisfies the invariant. -/
theorem Inv_init : initGame.Inv := by
  unfold Game.Inv
  refine ⟨rfl, ?_, ?_, by decide, by decide⟩
  · unfold RoomsKeysNamed
    decide
  · unfold RoomsClosed
    decide

/-- `move_player` preserves the invariant whenever it returns a state. -/
theorem Inv_move {g g' : Game} {d out : String}
    (hInv : g.Inv) (h : g.move_player d = some (g', out)) : g'.Inv := by
  unfold Game.move_player at h
  by_cases hd : d ∉ valid_directions
  · rw [if_pos hd] at h
    injection h with h'
    injection h' with h1 h2
    subst h1
    exact hInv
  · rw [if_neg hd] at h
    cases hx : g.player.current_room.exits.lookup d with
    | none =>
      rw [hx] at h
      injection h with h'
      injection h' with h1 h2
      subst h1
      exact hInv
    | some nm =>
      rw [hx] at h
      dsimp only at h
      cases hr : g.rooms.lookup nm with
      | none =>
        rw [hr] at h
        cases h
      | some room =>
        rw [hr] at h
        injection h with h'
        injection h' with h1 h2
        subst h1
        obtain ⟨h1', h2', h3', h4', h5'⟩ := hInv
        refine ⟨h1', h2', h3', ?_, h5'⟩
        have hmem := lookup_mem hr
        have hname : room.name = nm := h2' _ hmem
        show g.rooms.lookup room.name = some room
        rw [hname]
        exact hr

/-- The game-level pickup preserves the invariant. -/
theorem Inv_get {g : Game} (hInv : g.Inv) (item : String) :
    (g.get_item item).1.Inv := by
  unfold Game.get_item
  by_cases hc : g.player.current_room.has_item = true ∧
      g.player.current_room.itemName = some item
  · rw [if_pos hc]
    obtain ⟨h1, h2, h3, h4, h5⟩ := hInv
    have hnd : (g.rooms.map Prod.fst).Nodup := by
      rw [h1]
      decide
    refine ⟨?_, ?_, ?_, ?_, ?_⟩
    · show (updateRoom g.rooms g.player.current_room.name
          g.player.current_room.remove_item).map Prod.fst = initRooms.map Prod.fst
      rw [updateRoom_map_fst]
      exact h1
    · intro p hp
      rcases mem_updateRoom hp with hmem | ⟨hpr, v, hv⟩
      · exact h2 p hmem
      · subst hpr
        show g.player.current_room.remove_item.name = g.player.current_room.name
        rfl
    · intro p hp q hq
      have hsome : (g.rooms.lookup q.2).isSome = true := by
        rcases mem_updateRoom hp with hmem | ⟨hpr, v, hv⟩
        · exact h3 p hmem q hq
        · subst hpr
          exact h3 _ (lookup_mem h4) q hq
      rw [lookup_updateRoom]
      by_cases hqk : q.2 = g.player.current_room.name
      · rw [if_pos hqk]
        cases hl : g.rooms.lookup q.2 with
        | none =>
          rw [hl] at hsome
          cases hsome
        | some w =>
          rfl
      · rw [if_neg hqk]
        exact hsome
    · show (updateRoom g.rooms g.player.current_room.name
            g.player.current_room.remove_item).lookup
          g.player.current_room.remove_item.name
        = some g.player.current_room.remove_item
      rw [show g.player.current_room.remove_item.name = g.player.current_room.name
            from rfl]
      rw [lookup_updateRoom, if_pos rfl, h4]
      rfl
    · show (g.player.inventory ++ [item]).length +
          (updateRoom g.rooms g.player.current_room.name
            g.player.current_room.remove_item).countP (fun p => p.2.has_item)
        = g.total_items
      have hcnt := countP_updateRoom Room.has_item hnd h4
        g.player.current_room.remove_item
      rw [show g.player.current_room.remove_item.has_item = false from rfl] at hcnt
      rw [hc.1] at hcnt
      rw [List.length_append]
      simp at hcnt
      simp only [List.length_cons, List.length_nil]
      omega
  · rw [if_neg hc]
    exact hInv

/-- `process_command` preserves the invariant whenever it returns a
state. -/
theorem Inv_process {g g' : Game} {s out : String} (hInv : g.Inv)
    (h : g.process_command s = some (g', out)) : g'.Inv := by
  unfold Game.process_command at h
  cases hsplit : pySplit (pyStrip (pyLower s)) with
  | nil =>
    rw [hsplit] at h
    injection h with h'
    injection h' with h1 h2
    subst h1
    exact hInv
  | cons first rest =>
    rw [hsplit] at h
    dsimp only at h
    by_cases h1 : first = "go"
    · rw [if_pos h1] at h
      cases rest with
      | nil =>
        injection h with h'
        injection h' with ha hb
        subst ha
        exact hInv
      | cons d t =>
        exact Inv_move hInv h
    · rw [if_neg h1] at h
      by_cases h2 : first = "get"
      · rw [if_pos h2] at h
        cases rest with
        | nil =>
          injection h with h'
          injection h' with ha hb
          subst ha
          exact hInv
        | cons a t =>
          injection h with h'
          have hg : g' = (g.get_item (String.intercalate " " (a :: t))).1 := by
            rw [h']
          rw [hg]
          exact Inv_get hInv _
      · rw [if_neg h2] at h
        injection h with h'
        injection h' with ha hb
        subst ha
        exact hInv

/-- Under the invariant, `move_player` always returns a state and a
message. -/
theorem move_player_isSome {g : Game} (hInv : g.Inv) (d : String) :
    (g.move_player d).isSome = true := by
  unfold Game.move_player
  by_cases hd : d ∉ valid_directions
  · rw [if_pos hd]
    rfl
  · rw [if_neg hd]
    cases hx : g.player.current_room.exits.lookup d with
    | none => rfl
    | some nm =>
      dsimp only
      obtain ⟨h1, h2, h3, h4, h5⟩ := hInv
      have hq : (d, nm) ∈ g.player.current_room.exits := lookup_mem hx
      have hsome := h3 _ (lookup_mem h4) (d, nm) hq
      cases hr : g.rooms.lookup nm with
      | none =>
        rw [hr] at hsome
        cases hsome
      | some room =>
        rfl

/-- Under the invariant, `process_command` always returns a state and a
message. -/
theorem process_isSome {g : Game} (hInv : g.Inv) (s : String) :
    (g.process_command s).isSome = true := by
  unfold Game.process_command
  cases hsplit : pySplit (pyStrip (pyLower s)) with
  | nil => rfl
  | cons first rest =>
    dsimp only
    by_cases h1 : first = "go"
    · rw [if_pos h1]
      cases rest with
      | nil => rfl
      | cons d t => exact move_player_isSome hInv d
    · rw [if_neg h1]
      by_cases h2 : first = "get"
      · rw [if_pos h2]
        cases rest with
        | nil => rfl
        | cons a t => rfl
      · rw [if_neg h2]
        rfl

/-- Every reachable game state satisfies the invariant. -/
theorem Inv_of_reachable {g : Game} (h : Reachable g) : g.Inv := by
  induction h with
  | init => exact Inv_init
  | step g g' s out hr hcmd ih => exact Inv_process ih hcmd

/-- C8: on every reachable game state, `process_command` returns a state
and a message for every input string — no code path reaches the modelled
exception (`none`); in particular the room lookup inside `move_player`
finds a room for every present exit. -/
theorem C8_no_exception (g : Game) (s : String) (h : Reachable g) :
    (g.process_command s).isSome = true :=
  process_isSome (Inv_of_reachable h) s

/-- Witness for C8: the fresh game processes a command without reaching
the exception path. -/
theorem C8_no_exception_witness :
    (initGame.process_command "go nowhere").isSome = true :=
  C8_no_exception initGame "go nowhere" Reachable.init

/-- C9: on every reachable game state the room keys are exactly those of
the constructed game (commands never create or remove rooms) and every
exit of every room resolves to a key of the room map. -/
theorem C9_graph_closed (g : Game) (h : Reachable g) :
    g.rooms.map Prod.fst = initRooms.map Prod.fst ∧
    ∀ p ∈ g.rooms, ∀ q ∈ p.2.exits, ∃ r, g.rooms.lookup q.2 = some r := by
  obtain ⟨h1, h2, h3, h4, h5⟩ := Inv_of_reachable h
  refine ⟨h1, ?_⟩
  intro p hp q hq
  have hsome := h3 p hp q hq
  cases hr : g.rooms.lookup q.2 with
  | none =>
    rw [hr] at hsome
    cases hsome
  | some r =>
    exact ⟨r, rfl⟩

/-- Witness for C9: in the fresh game the keys are the configured ones and
the bedroom's north exit resolves to an existing room. -/
theorem C9_graph_closed_witness :
    initGame.rooms.map Prod.fst = initRooms.map Prod.fst ∧
    ∃ r, initGame.rooms.lookup "living room" = some r :=
  ⟨(C9_graph_closed initGame Reachable.init).1,
   (C9_graph_closed initGame Reachable.init).2 ("bedroom", bedroom_room)
     (by decide) ("north", "living room") (by decide)⟩

/-- C10: on every reachable game state the inventory size never exceeds
`total_items`, so the fall-through branch of the outcome comparison can
never be taken. -/
theorem C10_inventory_bound (g : Game) (h : Reachable g) :
    g.player.inventory.length ≤ g.total_items := by
  obtain ⟨h1, h2, h3, h4, h5⟩ := Inv_of_reachable h
  omega

/-- Witness for C10: the bound at the freshly constructed game. -/
theorem C10_inventory_bound_witness :
    initGame.player.inventory.length ≤ initGame.total_items :=
  C10_inventory_bound initGame Reachable.init
